import Mathlib

/-!
Shallow embedding of the IoTiX Adam Home Assistant integration
(`custom_components/iotix`), centred on the polling coordinator
(`coordinator.py`), the button-event dispatcher, the command methods and
the configuration-flow save paths (`config_flow.py`).

Conventions of the embedding:
* One HTTP fetch is a `FetchResult`: `ok body` stands for an HTTP 200
  response whose JSON body decoded to `body`; `httpError s` stands for a
  response with a non-200 status `s`; `transportError` stands for an
  `aiohttp.ClientError` or `TimeoutError` raised by the request.
* JSON objects are records of `Option` fields; `none` conflates "key
  absent" with "key null", which is the only distinction the coordinator
  never observes (it reads every field with `.get` or `["pin"]`).
* Python dicts are association lists.  Assignments prepend the binding in
  front of the bindings made earlier (or, where noted, the later bindings
  are appended behind and `lookupKey` scans in order), so that
  `lookupKey` — first match wins — agrees with Python's "last assignment
  wins" lookup semantics.  No claim depends on dict iteration order.
* The device behaviour during one polling cycle is an `Env` mapping each
  endpoint to its `FetchResult` for that cycle.
-/

/-- Outcome of one HTTP request: decoded 200 body, non-200 status, or an
`aiohttp.ClientError` / `TimeoutError`. -/
inductive FetchResult (α : Type) where
  | ok (body : α)
  | httpError (status : Nat)
  | transportError
deriving DecidableEq

/-- True exactly when the request returned HTTP 200 and decoded. -/
def FetchResult.isOk : FetchResult α → Bool
  | .ok _ => true
  | _ => false

/-- Opaque decoded body of `GET /api/info`; the coordinator stores it
without inspecting it. -/
abbrev DeviceInfo := Nat

/-- One entry of the configured-pins list (`/api/pins/config` `pins`
array), and also the shape of the synthesized virtual cover entries.
All JSON keys the coordinator reads are modelled; `none` = key absent. -/
structure PinEntry where
  pin : Option Int
  type : Option String
  name : Option String
  isInput : Option Bool
  coverId : Option Int
  inputUpPin : Option Int
  inputDownPin : Option Int
  outputUpPin : Option Int
  outputDownPin : Option Int
  upTimeSec : Option Int
  downTimeSec : Option Int
  interlock : Option Bool
  moving : Option Bool
  direction : Option String
deriving DecidableEq

/-- The all-absent JSON object, convenient base for literals. -/
def PinEntry.empty : PinEntry :=
  ⟨none, none, none, none, none, none, none, none, none, none, none, none, none, none⟩

/-- One entry of the dedicated covers endpoint (`/api/covers/config`
`covers` array). -/
structure CoverEntry where
  coverId : Option Int
  name : Option String
  inputUpPin : Option Int
  inputDownPin : Option Int
  outputUpPin : Option Int
  outputDownPin : Option Int
  upTimeSec : Option Int
  downTimeSec : Option Int
  interlock : Option Bool
  moving : Option Bool
  direction : Option String
deriving DecidableEq

def CoverEntry.empty : CoverEntry :=
  ⟨none, none, none, none, none, none, none, none, none, none, none⟩

/-- One entry of `/api/covers/state` `covers`; stored whole, keyed by
`coverId`. -/
structure CoverStateEntry where
  coverId : Option Int
  moving : Option Bool
  direction : Option String
deriving DecidableEq

/-- Decoded body of `GET /api/pin/state?pin=N&isInput=b`. -/
structure PinState where
  state : Option Bool
  brightness : Option Int
deriving DecidableEq

/-- One input-trigger mapping from `/api/input/triggers`; opaque to the
coordinator. -/
structure InputTrigger where
  inputPin : Option Int
  outputPin : Option Int
deriving DecidableEq

/-- One button event from `/api/button/events` `events`. -/
structure ButtonEvent where
  inputPin : Option Int
  eventType : Option String
deriving DecidableEq

/-- One XR8 relay module from `/api/xr8/list` `modules`; opaque to the
coordinator, which only stores the list. -/
structure Xr8Module where
  raw : Nat
deriving DecidableEq

/-- Body of `GET /api/pins/config`: an object whose `pins` key may be
absent (`pins_config.get("pins", [])`). -/
structure PinsBody where
  pins : Option (List PinEntry)

/-- Body of `GET /api/covers/config` (`covers_data.get("covers", [])`). -/
structure CoversCfgBody where
  covers : Option (List CoverEntry)

/-- Body of `GET /api/covers/state` (`covers_data.get("covers", [])`). -/
structure CoversStateBody where
  covers : Option (List CoverStateEntry)

/-- Body of `GET /api/input/triggers`
(`triggers_data.get("triggers", [])`). -/
structure TriggersBody where
  triggers : Option (List InputTrigger)

/-- Body of `GET /api/button/events` (`events_data.get("events", [])`). -/
structure EventsBody where
  events : Option (List ButtonEvent)

/-- Body of `GET /api/xr8/list` (`xr8_data.get("modules", [])`). -/
structure Xr8Body where
  modules : Option (List Xr8Module)

/-- First-match lookup in an association list; our dict encodings place
the binding that must win (the last Python assignment) first, or keep
keys unique. -/
def lookupKey [DecidableEq κ] (k : κ) : List (κ × α) → Option α
  | [] => none
  | (k2, v) :: rest => if k2 = k then some v else lookupKey k rest

/-- The device behaviour observed by one polling cycle: one result per
endpoint, per-pin state results as a function of the query parameters. -/
structure Env where
  info : FetchResult DeviceInfo
  pinsConfig : FetchResult PinsBody
  coversConfig : FetchResult CoversCfgBody
  pinState : Int → Bool → FetchResult PinState
  coversState : FetchResult CoversStateBody
  inputTriggers : FetchResult TriggersBody
  buttonEvents : FetchResult EventsBody
  xr8List : FetchResult Xr8Body

/-- The set `existing_cover_ids` (here: list, membership only) built in
`_async_update_data` from the raw pin list — for every entry of type
`"cover"`, `pin_config.get("coverId", max(pin_config.get("pin", 100) - 100, 0))`. -/
def existingCoverIds (raw : List PinEntry) : List Int :=
  (raw.filter (fun e => e.type == some "cover")).map
    (fun e => e.coverId.getD (max (e.pin.getD 100 - 100) 0))

/-- The pin-list-shaped dict appended for a dedicated cover-config entry
whose id is new (`merged_pins_config.append({...})` in
`_async_update_data`); `cid` is the entry's `coverId`. -/
def synthCoverEntry (c : CoverEntry) (cid : Int) : PinEntry :=
  { pin := some (100 + cid)
    type := some "cover"
    name := some (c.name.getD ("Cover " ++ toString (cid + 1)))
    isInput := some false
    coverId := some cid
    inputUpPin := c.inputUpPin
    inputDownPin := c.inputDownPin
    outputUpPin := c.outputUpPin
    outputDownPin := c.outputDownPin
    upTimeSec := c.upTimeSec
    downTimeSec := c.downTimeSec
    interlock := some (c.interlock.getD true)
    moving := some (c.moving.getD false)
    direction := some (c.direction.getD "stopped") }

/-- The entries the merge loop of `_async_update_data` appends: for each
dedicated cover entry, in order, skip it when its `coverId` is absent
(`cover_id is None`) or already in `existing_cover_ids`, otherwise
synthesize the pin-list-shaped entry. -/
def synthTail (raw : List PinEntry) (covers : List CoverEntry) : List PinEntry :=
  covers.filterMap (fun c =>
    match c.coverId with
    | none => none
    | some cid =>
        if cid ∈ existingCoverIds raw then none else some (synthCoverEntry c cid))

/-- The cover merge of `_async_update_data`: start from
`list(raw_pins_config)` and append the synthesized entries. -/
def mergePinsConfig (raw : List PinEntry) (covers : List CoverEntry) : List PinEntry :=
  raw ++ synthTail raw covers

/-- Errors that abort `_async_update_data`: an `UpdateFailed` raised for
the two load-bearing fetches (also reached when the outer
`except (aiohttp.ClientError, TimeoutError)` converts a transport error),
or the uncaught `KeyError`/`TypeError` from `pin_config["pin"]` when a
merged entry carries no usable pin number. -/
inductive UpdateError where
  | infoStatus (status : Nat)
  | pinsStatus (status : Nat)
  | transport
  | pinKeyError
deriving DecidableEq

/-- The dict key `f"{'in' if is_input else 'out'}_{pin}"`. -/
def stateKey (isIn : Bool) (p : Int) : String :=
  (if isIn then "in" else "out") ++ "_" ++ toString p

/-- Direction flag as the per-pin loop computes it:
`pin_config.get("isInput", pin_config.get("type") == "binary_sensor")`. -/
def entryIsInput (e : PinEntry) : Bool :=
  e.isInput.getD (e.type == some "binary_sensor")

/-- Whether the per-pin state loop skips this entry
(`pin_config.get("type") == "cover" or pin >= 100`); `p` is the value of
`pin_config["pin"]`. -/
def skipsStateFetch (e : PinEntry) (p : Int) : Bool :=
  e.type == some "cover" || 100 ≤ p

/-- The per-pin state loop of `_async_update_data`.  Returns the
`pin_states` dict (later assignments placed behind, `lookupKey` scans the
later ones first — see header) together with the trace of
`GET /api/pin/state` requests issued, in order; errors when an entry has
no pin number (`pin_config["pin"]` raises, uncaught).  A request
answering with a transport error is caught and skipped, a non-200 answer
falls through the `if resp.status == 200` guard: either way no binding is
stored for that pin. -/
def fetchPinStates (env : Env) : List PinEntry →
    Except UpdateError (List (String × PinState) × List (Int × Bool))
  | [] => .ok ([], [])
  | e :: rest =>
    match e.pin with
    | none => .error .pinKeyError
    | some p =>
      if skipsStateFetch e p then fetchPinStates env rest
      else
        match fetchPinStates env rest with
        | .error err => .error err
        | .ok (dict, trace) =>
          match env.pinState p (entryIsInput e) with
          | .ok state_data =>
              .ok (dict ++ [(stateKey (entryIsInput e) p, state_data)],
                   (p, entryIsInput e) :: trace)
          | _ => .ok (dict, (p, entryIsInput e) :: trace)

/-- The `covers_state` dict: for each entry of the body's `covers` list
whose `coverId` is present, `covers_state[cover_id] = cover_state`.
Assignments prepend, so `lookupKey` sees the last assignment first. -/
def buildCoversState (covers : List CoverStateEntry) : List (Int × CoverStateEntry) :=
  covers.foldl (fun acc cs =>
    match cs.coverId with
    | none => acc
    | some cid => (cid, cs) :: acc) []

/-- The value of the snapshot's `triggers` field.  It is initialised to
the empty dict `{}` and replaced by the list
`triggers_data.get("triggers", [])` only when the fetch returns 200, so
the failure default is the empty dict, not a list. -/
inductive TriggersVal where
  | emptyDict
  | pylist (l : List InputTrigger)
deriving DecidableEq

/-- Callback identity; behaviour (whether a given invocation raises) is
supplied separately as an oracle. -/
abbrev Cb := Nat

/-- Model of `register_button_event_listener`: create the pin-keyed
dict entry if absent, then append the callback to its list. -/
def registerButtonEventListener : List (Int × List Cb) → Int → Cb → List (Int × List Cb)
  | [], p, cb => [(p, [cb])]
  | (q, cbs) :: rest, p, cb =>
      if q = p then (q, cbs ++ [cb]) :: rest
      else (q, cbs) :: registerButtonEventListener rest p cb

/-- A listener registry built by a sequence of
`register_button_event_listener(pin, cb)` calls, in order, starting from
the empty dict of `__init__`. -/
def buildRegistry (regs : List (Int × Cb)) : List (Int × List Cb) :=
  regs.foldl (fun r pc => registerButtonEventListener r pc.1 pc.2) []

/-- One observed callback invocation: which callback, the `event_type`
argument passed, and whether the call raised (the exception is caught and
logged by `_trigger_button_events`). -/
structure Invocation where
  cb : Cb
  arg : Option String
  raised : Bool
deriving DecidableEq

/-- Model of `_trigger_button_events`: for each event, read `inputPin` and
`eventType` with `.get`; if the pin is a key of the listener dict, call
every registered callback in order with the event type, catching (and
logging) any exception a callback raises.  The result is the full
invocation trace; the function itself always returns. -/
def triggerButtonEvents (listeners : List (Int × List Cb))
    (raises : Cb → Option String → Bool) (events : List ButtonEvent) :
    List Invocation :=
  events.flatMap (fun ev =>
    match ev.inputPin with
    | none => []
    | some p =>
      match lookupKey p listeners with
      | none => []
      | some cbs => cbs.map (fun cb => ⟨cb, ev.eventType, raises cb ev.eventType⟩))

/-- The Snapshot: the dict returned by `_async_update_data`. -/
structure Snapshot where
  device_info : DeviceInfo
  pins_config : List PinEntry
  pin_states : List (String × PinState)
  triggers : TriggersVal
  button_events : List ButtonEvent
  covers_state : List (Int × CoverStateEntry)
  covers_config : List CoverEntry
  xr8_modules : List Xr8Module
deriving DecidableEq

/-- Everything one successful cycle produced: the returned snapshot, the
button-callback invocations dispatched by the cycle's
`_trigger_button_events` call, and the trace of per-pin state requests
issued. -/
structure CycleResult where
  snapshot : Snapshot
  dispatched : List Invocation
  pinFetches : List (Int × Bool)
deriving DecidableEq

/-- Model of `_async_update_data`: one polling cycle against the device behaviour
`env`, with the coordinator's listener registry and callback behaviour.
Follows the source order: info and pins-config fetches are fatal on any
failure; covers-config, per-pin states, covers-state, input-triggers,
button-events (dispatched immediately) and xr8-list fetches degrade to
their defaults on non-200 or caught transport errors. -/
def asyncUpdateData (env : Env) (listeners : List (Int × List Cb))
    (raises : Cb → Option String → Bool) : Except UpdateError CycleResult :=
  match env.info with
  | .httpError s => .error (.infoStatus s)
  | .transportError => .error .transport
  | .ok device_info =>
  match env.pinsConfig with
  | .httpError s => .error (.pinsStatus s)
  | .transportError => .error .transport
  | .ok pinsBody =>
    let raw_pins_config := pinsBody.pins.getD []
    let covers_config :=
      match env.coversConfig with
      | .ok b => b.covers.getD []
      | _ => []
    let merged_pins_config := mergePinsConfig raw_pins_config covers_config
    match fetchPinStates env merged_pins_config with
    | .error err => .error err
    | .ok (pin_states, pinFetches) =>
      let covers_state :=
        match env.coversState with
        | .ok b => buildCoversState (b.covers.getD [])
        | _ => []
      let triggers : TriggersVal :=
        match env.inputTriggers with
        | .ok b => .pylist (b.triggers.getD [])
        | _ => .emptyDict
      let button_events :=
        match env.buttonEvents with
        | .ok b => b.events.getD []
        | _ => []
      let dispatched := triggerButtonEvents listeners raises button_events
      let xr8_modules :=
        match env.xr8List with
        | .ok b => b.modules.getD []
        | _ => []
      .ok { snapshot :=
              { device_info := device_info
                pins_config := merged_pins_config
                pin_states := pin_states
                triggers := triggers
                button_events := button_events
                covers_state := covers_state
                covers_config := covers_config
                xr8_modules := xr8_modules }
            dispatched := dispatched
            pinFetches := pinFetches }

/-- The JSON payload of `POST /api/pin/control`; the `brightness` key is
present exactly when the keyword argument was passed. -/
structure PinControlPayload where
  pin : Int
  command : String
  brightness : Option Int
deriving DecidableEq

/-- Externally visible actions of `async_set_pin_state`. -/
inductive CmdAction where
  | postPinControl (payload : PinControlPayload)
  | requestRefresh
deriving DecidableEq

def CmdAction.isPost : CmdAction → Bool
  | .postPinControl _ => true
  | .requestRefresh => false

/-- Model of `async_set_pin_state(pin, command, **kwargs)`: build the payload
(adding `brightness` when passed), POST it once to `/api/pin/control`;
on HTTP 200 call `async_request_refresh()` and return `True`; on a
non-200 status return `False`; on a caught transport/timeout error log
and return `False`.  Result: the ordered action trace and the returned
boolean. -/
def asyncSetPinState (pin : Int) (command : String) (brightness : Option Int)
    (resp : FetchResult Unit) : List CmdAction × Bool :=
  let payload : PinControlPayload :=
    { pin := pin, command := command, brightness := brightness }
  match resp with
  | .ok _ => ([.postPinControl payload, .requestRefresh], true)
  | .httpError _ => ([.postPinControl payload], false)
  | .transportError => ([.postPinControl payload], false)

/-- The JSON payload of `POST /api/cover/configure`. -/
structure CoverConfigurePayload where
  coverId : Int
  name : String
  inputUpPin : Int
  inputDownPin : Int
  outputUpPin : Int
  outputDownPin : Int
  upTimeSec : Int
  downTimeSec : Int
  interlock : Bool
deriving DecidableEq

/-- The payload built by the configuration flow's `_save_cover_config`
(`config_flow.py`): the two timers are sent as `max(1, up_time)` and
`max(1, down_time)`. -/
def saveCoverConfigPayload (cover_id : Int) (name : String)
    (input_up input_down output_up output_down : Int)
    (up_time down_time : Int) (interlock : Bool) : CoverConfigurePayload :=
  { coverId := cover_id
    name := name
    inputUpPin := input_up
    inputDownPin := input_down
    outputUpPin := output_up
    outputDownPin := output_down
    upTimeSec := max 1 up_time
    downTimeSec := max 1 down_time
    interlock := interlock }

/-- The payload built by the coordinator's `async_configure_cover`
(`coordinator.py`): every field, the timers included, is forwarded
verbatim — no clamping happens there. -/
def asyncConfigureCoverPayload (cover_id : Int) (name : String)
    (input_up_pin input_down_pin output_up_pin output_down_pin : Int)
    (up_time_sec down_time_sec : Int) (interlock : Bool) : CoverConfigurePayload :=
  { coverId := cover_id
    name := name
    inputUpPin := input_up_pin
    inputDownPin := input_down_pin
    outputUpPin := output_up_pin
    outputDownPin := output_down_pin
    upTimeSec := up_time_sec
    downTimeSec := down_time_sec
    interlock := interlock }

/-- The `config_data` dict handed to `_save_pin_config`; `Option` fields
model the `"key" in config_data` checks (classic-mode flows set
`trigger_output`, push-mode flows set the three press outputs). -/
structure PinSaveData where
  pin : Int
  type : String
  name : String
  isInput : Bool
  buttonMode : Option String
  longPressDuration : Option Int
  doublePressTimeframe : Option Int
  trigger_output : Option Int
  short_press_output : Option Int
  long_press_output : Option Int
  double_press_output : Option Int
deriving DecidableEq

/-- The JSON payload of `POST /api/pin/configure` as `_save_pin_config`
builds it (optional keys added only when present in `config_data`). -/
structure PinConfigurePayload where
  pin : Int
  type : String
  name : String
  isInput : Bool
  buttonMode : Option String
  longPressDuration : Option Int
  doublePressTimeframe : Option Int
deriving DecidableEq

/-- HTTP requests issued while saving a pin configuration:
`postPinConfigure` targets `/api/pin/configure`; `postTriggerSet`
(`_set_trigger`) and `postPushTriggerSet` (`_set_push_triggers`) both
target `/api/input/trigger/set`. -/
inductive SaveAction where
  | postPinConfigure (payload : PinConfigurePayload)
  | postTriggerSet (inputPin outputPin : Int)
  | postPushTriggerSet (inputPin shortOut longOut doubleOut : Int)
deriving DecidableEq

/-- Whether the request targets `/api/input/trigger/set`. -/
def SaveAction.isTriggerSetRequest : SaveAction → Bool
  | .postPinConfigure _ => false
  | .postTriggerSet _ _ => true
  | .postPushTriggerSet _ _ _ _ => true

/-- The requests issued by `_save_pin_config(config_data)` given the
outcome of the configure POST.  On HTTP 200: issue the classic trigger
set when `"trigger_output" in config_data and config_data["trigger_output"] != 255`,
then the push trigger set when any of the three press-output keys is
present (defaulting each missing one to 255).  On a non-200 status or a
caught exception nothing further is posted.  (The trailing refresh /
reload / return-to-menu steps are UI navigation and are not modelled.) -/
def savePinConfigActions (d : PinSaveData) (configureResp : FetchResult Unit) :
    List SaveAction :=
  let payload : PinConfigurePayload :=
    { pin := d.pin
      type := if d.type = "button" then "binary_sensor" else d.type
      name := d.name
      isInput := d.isInput
      buttonMode := d.buttonMode
      longPressDuration := d.longPressDuration
      doublePressTimeframe := d.doublePressTimeframe }
  [SaveAction.postPinConfigure payload] ++
    (match configureResp with
     | .ok _ =>
        (match d.trigger_output with
         | some v => if v ≠ 255 then [SaveAction.postTriggerSet d.pin v] else []
         | none => []) ++
        (if d.short_press_output.isSome || d.long_press_output.isSome
            || d.double_press_output.isSome then
          [SaveAction.postPushTriggerSet d.pin (d.short_press_output.getD 255)
            (d.long_press_output.getD 255) (d.double_press_output.getD 255)]
         else [])
     | _ => [])

/-! ### Helper lemmas -/

theorem lookupKey_append_of_some [DecidableEq κ] {k : κ} {l1 l2 : List (κ × α)} {v : α}
    (h : lookupKey k l1 = some v) : lookupKey k (l1 ++ l2) = some v := by
  induction l1 with
  | nil => simp [lookupKey] at h
  | cons kv rest ih =>
      obtain ⟨k2, v2⟩ := kv
      by_cases hk : k2 = k
      · simp [lookupKey, hk] at h ⊢
        exact h
      · simp [lookupKey, hk] at h ⊢
        exact ih h

theorem lookupKey_append_of_none [DecidableEq κ] {k : κ} {l1 l2 : List (κ × α)}
    (h : lookupKey k l1 = none) : lookupKey k (l1 ++ l2) = lookupKey k l2 := by
  induction l1 with
  | nil => simp
  | cons kv rest ih =>
      obtain ⟨k2, v2⟩ := kv
      by_cases hk : k2 = k
      · simp [lookupKey, hk] at h
      · simp [lookupKey, hk] at h ⊢
        exact ih h

theorem lookupKey_eq_none_of_not_mem [DecidableEq κ] {k : κ} {l : List (κ × α)}
    (h : ∀ kv ∈ l, kv.1 ≠ k) : lookupKey k l = none := by
  induction l with
  | nil => rfl
  | cons kv rest ih =>
      have hk : kv.1 ≠ k := h kv (List.mem_cons_self kv rest)
      obtain ⟨k2, v2⟩ := kv
      simp only [lookupKey, if_neg hk]
      exact ih (fun kv hm => h kv (List.mem_cons_of_mem _ hm))

/-- Effect of one `register_button_event_listener` call on the callback
list a later lookup observes. -/
theorem lookupKey_register (r : List (Int × List Cb)) (q : Int) (cb : Cb) (p : Int) :
    (lookupKey p (registerButtonEventListener r q cb)).getD []
      = if q = p then (lookupKey p r).getD [] ++ [cb]
        else (lookupKey p r).getD [] := by
  induction r with
  | nil =>
      by_cases hq : q = p <;> simp [registerButtonEventListener, lookupKey, hq]
  | cons kv rest ih =>
      obtain ⟨k2, cbs⟩ := kv
      by_cases hk : k2 = q
      · subst hk
        by_cases hq : k2 = p <;> simp [registerButtonEventListener, lookupKey, hq]
      · by_cases hp : k2 = p
        · subst hp
          have hq : ¬ q = k2 := fun h => hk h.symm
          simp [registerButtonEventListener, lookupKey, hk, hq]
        · simp [registerButtonEventListener, lookupKey, hk, hp, ih]

/-- After a sequence of registrations on top of any starting registry,
the callback list a lookup at `p` observes is the starting list followed
by the callbacks registered at `p`, in registration order. -/
theorem lookupKey_foldl_register (regs : List (Int × Cb)) (r : List (Int × List Cb)) (p : Int) :
    (lookupKey p (regs.foldl (fun r2 pc => registerButtonEventListener r2 pc.1 pc.2) r)).getD []
      = (lookupKey p r).getD []
          ++ (regs.filter (fun rc => rc.1 == p)).map Prod.snd := by
  induction regs generalizing r with
  | nil => simp
  | cons pc rest ih =>
      simp only [List.foldl_cons, ih, lookupKey_register]
      by_cases hq : pc.1 = p
      · simp [List.filter_cons, hq]
      · simp [List.filter_cons, hq]

/-- The registered callbacks at `p`, in registration order. -/
theorem lookupKey_buildRegistry (regs : List (Int × Cb)) (p : Int) :
    (lookupKey p (buildRegistry regs)).getD []
      = (regs.filter (fun rc => rc.1 == p)).map Prod.snd := by
  simpa [buildRegistry] using lookupKey_foldl_register regs [] p

/-! ### Claims about the event dispatcher -/

/-- C4.  For every dispatched button-event list and every event
`{inputPin, eventType}` in it, the trace of `_trigger_button_events`
over a registry built by `register_button_event_listener` calls contains,
for that event, exactly the callbacks registered on that pin — each once,
in registration order, invoked with that event's type — and no callback
registered on any other pin. -/
theorem triggerButtonEvents_dispatch_spec (regs : List (Int × Cb))
    (raises : Cb → Option String → Bool) (events : List ButtonEvent) :
    triggerButtonEvents (buildRegistry regs) raises events
      = events.flatMap (fun ev =>
          match ev.inputPin with
          | none => []
          | some p =>
              ((regs.filter (fun rc => rc.1 == p)).map Prod.snd).map
                (fun cb => ⟨cb, ev.eventType, raises cb ev.eventType⟩)) := by
  unfold triggerButtonEvents
  congr 1
  funext ev
  cases hpin : ev.inputPin with
  | none => rfl
  | some p =>
      have hlook := lookupKey_buildRegistry regs p
      cases hl : lookupKey p (buildRegistry regs) with
      | none =>
          rw [hl] at hlook
          simp only [Option.getD_none] at hlook
          simp [hl, ← hlook]
      | some cbs =>
          rw [hl] at hlook
          simp only [Option.getD_some] at hlook
          simp [hl, ← hlook]

/-- C5.  Which callbacks `_trigger_button_events` invokes, with which
arguments and in which order, does not depend on which callbacks raise:
a raising callback (caught and logged) blocks neither the remaining
callbacks on its pin nor the remaining events, and dispatch never
propagates the exception (it always returns a full trace). -/
theorem triggerButtonEvents_exception_isolation (listeners : List (Int × List Cb))
    (raises : Cb → Option String → Bool) (events : List ButtonEvent) :
    (triggerButtonEvents listeners raises events).map (fun i => (i.cb, i.arg))
      = (triggerButtonEvents listeners (fun _ _ => false) events).map
          (fun i => (i.cb, i.arg)) := by
  unfold triggerButtonEvents
  induction events with
  | nil => rfl
  | cons ev rest ih =>
      simp only [List.flatMap_cons, List.map_append, ih]
      congr 1
      cases hpin : ev.inputPin with
      | none => rfl
      | some p =>
          cases hl : lookupKey p listeners with
          | none => simp [hl]
          | some cbs => simp [hl]

/-! ### Claims about cycle-level error handling -/

/-- Whether the abort corresponds to a raised `UpdateFailed` (as opposed
to the uncaught crash on an entry without a pin number). -/
def UpdateError.isUpdateFailed : UpdateError → Bool
  | .pinKeyError => false
  | _ => true

/-- C1.  If the `/api/info` fetch or the `/api/pins/config` fetch answers
with a non-200 status or a transport/timeout error, the polling cycle
raises `UpdateFailed` and returns no snapshot. -/
theorem updateData_fatal_on_core_failure (env : Env) (listeners : List (Int × List Cb))
    (raises : Cb → Option String → Bool)
    (h : env.info.isOk = false ∨ env.pinsConfig.isOk = false) :
    ∃ e, asyncUpdateData env listeners raises = .error e ∧ e.isUpdateFailed = true := by
  cases hi : env.info with
  | httpError s =>
      exact ⟨.infoStatus s, by simp [asyncUpdateData, hi], rfl⟩
  | transportError =>
      exact ⟨.transport, by simp [asyncUpdateData, hi], rfl⟩
  | ok di =>
      cases hp : env.pinsConfig with
      | httpError s =>
          exact ⟨.pinsStatus s, by simp [asyncUpdateData, hi, hp], rfl⟩
      | transportError =>
          exact ⟨.transport, by simp [asyncUpdateData, hi, hp], rfl⟩
      | ok b =>
          rw [hi, hp] at h
          simp [FetchResult.isOk] at h

/-- A cycle in which the device answers `/api/info` with HTTP 500 and
everything else normally. -/
def envInfoDown : Env :=
  { info := .httpError 500
    pinsConfig := .ok ⟨some []⟩
    coversConfig := .ok ⟨some []⟩
    pinState := fun _ _ => .ok ⟨some false, none⟩
    coversState := .ok ⟨some []⟩
    inputTriggers := .ok ⟨some []⟩
    buttonEvents := .ok ⟨some []⟩
    xr8List := .ok ⟨some []⟩ }

theorem updateData_fatal_on_core_failure_witness :
    envInfoDown.info.isOk = false
    ∧ ∃ e, asyncUpdateData envInfoDown [] (fun _ _ => false) = .error e
        ∧ e.isUpdateFailed = true :=
  ⟨rfl, updateData_fatal_on_core_failure envInfoDown [] (fun _ _ => false) (Or.inl rfl)⟩

/-! ### Claims about the command facade -/

/-- Whether the action is the `requestRefresh` call. -/
def CmdAction.isRefresh : CmdAction → Bool
  | .postPinControl _ => false
  | .requestRefresh => true

/-- C6.  `async_set_pin_state` issues exactly one POST to
`/api/pin/control`; on HTTP 200 it requests exactly one refresh and
returns `True`; on a non-200 status or transport/timeout error it
requests no refresh and returns `False`. -/
theorem setPinState_roundtrip (pin : Int) (command : String) (brightness : Option Int)
    (resp : FetchResult Unit) :
    ((asyncSetPinState pin command brightness resp).1.countP CmdAction.isPost = 1)
    ∧ (resp.isOk = true →
        (asyncSetPinState pin command brightness resp).1.countP CmdAction.isRefresh = 1
        ∧ (asyncSetPinState pin command brightness resp).2 = true)
    ∧ (resp.isOk = false →
        (asyncSetPinState pin command brightness resp).1.countP CmdAction.isRefresh = 0
        ∧ (asyncSetPinState pin command brightness resp).2 = false) := by
  cases resp <;>
    simp [asyncSetPinState, FetchResult.isOk, CmdAction.isPost, CmdAction.isRefresh,
      List.countP_cons, List.countP_nil]

theorem setPinState_roundtrip_witness :
    ((FetchResult.ok ()).isOk = true
      ∧ (asyncSetPinState 3 "on" none (.ok ())).1.countP CmdAction.isRefresh = 1
      ∧ (asyncSetPinState 3 "on" none (.ok ())).2 = true)
    ∧ ((FetchResult.httpError 500 : FetchResult Unit).isOk = false
      ∧ (asyncSetPinState 3 "on" none (.httpError 500)).1.countP CmdAction.isRefresh = 0
      ∧ (asyncSetPinState 3 "on" none (.httpError 500)).2 = false) :=
  ⟨⟨rfl, (setPinState_roundtrip 3 "on" none (.ok ())).2.1 rfl⟩,
   ⟨rfl, (setPinState_roundtrip 3 "on" none (.httpError 500)).2.2 rfl⟩⟩

/-- C8 counterexample.  The coordinator's `async_configure_cover` — one
of the two functions that POST to `/api/cover/configure` — forwards the
timers unclamped: with `up_time_sec = 0` and `down_time_sec = -5` the
payload carries `0` and `-5`, not `max 1` of them. -/
theorem asyncConfigureCover_does_not_clamp :
    (asyncConfigureCoverPayload 0 "Cover 1" 1 2 3 4 0 (-5) true).upTimeSec = 0
    ∧ (asyncConfigureCoverPayload 0 "Cover 1" 1 2 3 4 0 (-5) true).downTimeSec = -5
    ∧ (0 : Int) ≠ max 1 0
    ∧ (-5 : Int) ≠ max 1 (-5) := by
  refine ⟨rfl, rfl, by decide, by decide⟩

/-- C8 amended.  The configuration flow's `_save_cover_config` — the
save path the cover wizard actually uses — clamps both timers: the
payload posted to `/api/cover/configure` carries
`upTimeSec = max 1 up_time` and `downTimeSec = max 1 down_time`, so both
are at least 1 second for every input, including 0 and negatives. -/
theorem saveCoverConfig_clamps_timers (cover_id : Int) (name : String)
    (input_up input_down output_up output_down up_time down_time : Int)
    (interlock : Bool) :
    (saveCoverConfigPayload cover_id name input_up input_down output_up output_down
        up_time down_time interlock).upTimeSec = max 1 up_time
    ∧ (saveCoverConfigPayload cover_id name input_up input_down output_up output_down
        up_time down_time interlock).downTimeSec = max 1 down_time
    ∧ 1 ≤ (saveCoverConfigPayload cover_id name input_up input_down output_up output_down
        up_time down_time interlock).upTimeSec
    ∧ 1 ≤ (saveCoverConfigPayload cover_id name input_up input_down output_up output_down
        up_time down_time interlock).downTimeSec :=
  ⟨rfl, rfl, le_max_left 1 up_time, le_max_left 1 down_time⟩

/-- C9.  Saving a classic-mode button pin (`trigger_output` present, no
push-press keys) with the sentinel 255 issues no POST to
`/api/input/trigger/set`; conversely, a classic trigger-set request only
ever carries the selected output when it differs from 255. -/
theorem savePinConfig_sentinel_no_trigger_set (d : PinSaveData) (resp : FetchResult Unit)
    (hshort : d.short_press_output = none) (hlong : d.long_press_output = none)
    (hdouble : d.double_press_output = none) :
    (d.trigger_output = some 255 →
      ∀ a ∈ savePinConfigActions d resp, a.isTriggerSetRequest = false)
    ∧ (∀ ip op, SaveAction.postTriggerSet ip op ∈ savePinConfigActions d resp →
        d.trigger_output = some op ∧ op ≠ 255) := by
  constructor
  · intro h255 a ha
    cases resp with
    | ok u =>
        simp [savePinConfigActions, h255, hshort, hlong, hdouble] at ha
        subst ha
        rfl
    | httpError s =>
        simp [savePinConfigActions] at ha
        subst ha
        rfl
    | transportError =>
        simp [savePinConfigActions] at ha
        subst ha
        rfl
  · intro ip op hmem
    cases resp with
    | ok u =>
        cases hto : d.trigger_output with
        | none =>
            simp [savePinConfigActions, hto, hshort, hlong, hdouble] at hmem
        | some v =>
            by_cases hv : v = 255
            · subst hv
              simp [savePinConfigActions, hto, hshort, hlong, hdouble] at hmem
            · simp [savePinConfigActions, hto, hv, hshort, hlong, hdouble] at hmem
              refine ⟨congrArg some hmem.2.symm, ?_⟩
              intro hcon
              exact hv (hmem.2.symm.trans hcon)
    | httpError s =>
        simp [savePinConfigActions] at hmem
    | transportError =>
        simp [savePinConfigActions] at hmem

/-- A classic-mode button pin save with the sentinel trigger output. -/
def classicSentinelSave : PinSaveData :=
  { pin := 4
    type := "button"
    name := "Hall button"
    isInput := true
    buttonMode := some "classic"
    longPressDuration := none
    doublePressTimeframe := none
    trigger_output := some 255
    short_press_output := none
    long_press_output := none
    double_press_output := none }

theorem savePinConfig_sentinel_no_trigger_set_witness :
    classicSentinelSave.trigger_output = some 255
    ∧ ∀ a ∈ savePinConfigActions classicSentinelSave (.ok ()),
        a.isTriggerSetRequest = false :=
  ⟨rfl, (savePinConfig_sentinel_no_trigger_set classicSentinelSave (.ok ())
      rfl rfl rfl).1 rfl⟩

/-! ### Cover-merge lemmas and claims -/

theorem take_mergePinsConfig (raw : List PinEntry) (covers : List CoverEntry) :
    (mergePinsConfig raw covers).take raw.length = raw :=
  List.take_left raw (synthTail raw covers)

theorem drop_mergePinsConfig (raw : List PinEntry) (covers : List CoverEntry) :
    (mergePinsConfig raw covers).drop raw.length = synthTail raw covers :=
  List.drop_left raw (synthTail raw covers)

/-- A pin-list cover entry carrying an explicit `coverId` puts that id in
`existing_cover_ids`. -/
theorem mem_existingCoverIds {raw : List PinEntry} {e : PinEntry} {cid : Int}
    (he : e ∈ raw) (ht : e.type = some "cover") (hc : e.coverId = some cid) :
    cid ∈ existingCoverIds raw := by
  unfold existingCoverIds
  refine List.mem_map.2 ⟨e, List.mem_filter.2 ⟨he, ?_⟩, ?_⟩
  · simp [ht]
  · simp [hc]

/-- Shape of the appended entries: each comes from one dedicated cover
entry with a fresh id. -/
theorem mem_synthTail {raw : List PinEntry} {covers : List CoverEntry} {e : PinEntry}
    (he : e ∈ synthTail raw covers) :
    ∃ c ∈ covers, ∃ cid, c.coverId = some cid ∧ cid ∉ existingCoverIds raw
      ∧ e = synthCoverEntry c cid := by
  obtain ⟨c, hc, hfc⟩ := List.mem_filterMap.1 he
  refine ⟨c, hc, ?_⟩
  cases hcid : c.coverId with
  | none => rw [hcid] at hfc; exact absurd hfc (by simp)
  | some cid =>
      rw [hcid] at hfc
      have hfc2 : (if cid ∈ existingCoverIds raw then none
          else some (synthCoverEntry c cid)) = some e := hfc
      by_cases hmem : cid ∈ existingCoverIds raw
      · rw [if_pos hmem] at hfc2
        exact absurd hfc2 (by simp)
      · rw [if_neg hmem] at hfc2
        exact ⟨cid, rfl, hmem, (Option.some_inj.1 hfc2).symm⟩

theorem synthTail_countP_of_mem (raw : List PinEntry) (covers : List CoverEntry)
    (cid : Int) (h : cid ∈ existingCoverIds raw) :
    (synthTail raw covers).countP (fun x => x.coverId == some cid) = 0 := by
  induction covers with
  | nil => rfl
  | cons c rest ih =>
      cases hc : c.coverId with
      | none => simpa [synthTail, List.filterMap_cons, hc] using ih
      | some cid2 =>
          by_cases hmem : cid2 ∈ existingCoverIds raw
          · simpa [synthTail, List.filterMap_cons, hc, hmem] using ih
          · have hne : cid2 ≠ cid := fun heq => hmem (heq ▸ h)
            simpa [synthTail, List.filterMap_cons, hc, hmem, List.countP_cons,
              synthCoverEntry, hne] using ih

theorem synthTail_countP_of_not_mem (raw : List PinEntry) (covers : List CoverEntry)
    (cid : Int) (h : cid ∉ existingCoverIds raw) :
    (synthTail raw covers).countP (fun x => x.coverId == some cid)
      = covers.countP (fun c => c.coverId == some cid) := by
  induction covers with
  | nil => rfl
  | cons c rest ih =>
      cases hc : c.coverId with
      | none =>
          simpa [synthTail, List.filterMap_cons, hc, List.countP_cons] using ih
      | some cid2 =>
          by_cases hmem : cid2 ∈ existingCoverIds raw
          · have hne : cid2 ≠ cid := fun heq => h (heq ▸ hmem)
            simpa [synthTail, List.filterMap_cons, hc, hmem, List.countP_cons, hne]
              using ih
          · by_cases heq : cid2 = cid
            · subst heq
              simpa [synthTail, List.filterMap_cons, hc, hmem, List.countP_cons,
                synthCoverEntry] using ih
            · simpa [synthTail, List.filterMap_cons, hc, hmem, List.countP_cons,
                synthCoverEntry, heq] using ih

/-- C3.  Cover reconciliation of `_async_update_data`: (1) a `coverId`
already carried by a pin-list entry of type cover gets no synthesized
entry appended (pin-list wins, no duplicate per `coverId`); (2) for a
`coverId` absent from the pin list, exactly as many synthesized entries
are appended as the dedicated endpoint listed entries with that id — one
per dedicated entry; (3) every synthesized entry for `cid` is of type
cover at pin `100 + cid`. -/
theorem mergePinsConfig_cover_reconciliation (raw : List PinEntry)
    (covers : List CoverEntry) (cid : Int) :
    ((∃ e ∈ raw, e.type = some "cover" ∧ e.coverId = some cid) →
      ((mergePinsConfig raw covers).drop raw.length).countP
          (fun x => x.coverId == some cid) = 0)
    ∧ (cid ∉ existingCoverIds raw →
      ((mergePinsConfig raw covers).drop raw.length).countP
          (fun x => x.coverId == some cid)
        = covers.countP (fun c => c.coverId == some cid))
    ∧ (∀ e ∈ (mergePinsConfig raw covers).drop raw.length,
        e.coverId = some cid → e.pin = some (100 + cid) ∧ e.type = some "cover") := by
  refine ⟨?_, ?_, ?_⟩
  · rintro ⟨e, he, ht, hc⟩
    rw [drop_mergePinsConfig]
    exact synthTail_countP_of_mem raw covers cid (mem_existingCoverIds he ht hc)
  · intro h
    rw [drop_mergePinsConfig]
    exact synthTail_countP_of_not_mem raw covers cid h
  · intro e he hc
    rw [drop_mergePinsConfig] at he
    obtain ⟨c, _, cid2, _, _, hsynth⟩ := mem_synthTail he
    have : cid2 = cid := by
      rw [hsynth] at hc
      simpa [synthCoverEntry] using hc
    subst this
    rw [hsynth]
    exact ⟨rfl, rfl⟩

/-- A concrete pin list with a physical light on pin 3 and a pin-list
cover entry for id 2, and a dedicated covers endpoint reporting ids 2
and 1. -/
def pinListCoverEx : PinEntry :=
  { PinEntry.empty with
      pin := some 102
      type := some "cover"
      coverId := some 2
      name := some "Gate" }

def rawPinsEx : List PinEntry :=
  [{ PinEntry.empty with pin := some 3, type := some "light", name := some "Lamp" },
   pinListCoverEx]

def coversEx : List CoverEntry :=
  [{ CoverEntry.empty with coverId := some 2, name := some "Gate conflicting" },
   { CoverEntry.empty with coverId := some 1, name := some "Blind" }]

theorem mergePinsConfig_cover_reconciliation_witness :
    ((∃ e ∈ rawPinsEx, e.type = some "cover" ∧ e.coverId = some (2 : Int))
      ∧ ((mergePinsConfig rawPinsEx coversEx).drop rawPinsEx.length).countP
          (fun x => x.coverId == some (2 : Int)) = 0)
    ∧ ((1 : Int) ∉ existingCoverIds rawPinsEx
      ∧ ((mergePinsConfig rawPinsEx coversEx).drop rawPinsEx.length).countP
          (fun x => x.coverId == some (1 : Int))
        = coversEx.countP (fun c => c.coverId == some (1 : Int))) :=
  ⟨⟨by decide,
    (mergePinsConfig_cover_reconciliation rawPinsEx coversEx 2).1 (by decide)⟩,
   ⟨by decide,
    (mergePinsConfig_cover_reconciliation rawPinsEx coversEx 1).2.1 (by decide)⟩⟩

/-- C10.  The merge only appends: the merged `pins_config` starts with
the raw pin list, unchanged, in order, and everything after it is a
synthesized cover entry (type cover, pin `100 + coverId`). -/
theorem mergePinsConfig_frame (raw : List PinEntry) (covers : List CoverEntry) :
    (mergePinsConfig raw covers).take raw.length = raw
    ∧ ∀ e ∈ (mergePinsConfig raw covers).drop raw.length,
        e.type = some "cover" ∧ ∃ cid, e.coverId = some cid ∧ e.pin = some (100 + cid) := by
  refine ⟨take_mergePinsConfig raw covers, ?_⟩
  intro e he
  rw [drop_mergePinsConfig] at he
  obtain ⟨c, _, cid, _, _, hsynth⟩ := mem_synthTail he
  subst hsynth
  exact ⟨rfl, cid, rfl, rfl⟩

/-! ### Per-pin state fetch lemmas -/

/-- The `GET /api/pin/state` requests the loop issues: one per entry
that has a pin number and is neither of type cover nor at pin ≥ 100, in
list order. -/
def fetchTraceSpec (entries : List PinEntry) : List (Int × Bool) :=
  entries.filterMap (fun e =>
    match e.pin with
    | none => none
    | some p => if skipsStateFetch e p then none else some (p, entryIsInput e))

/-- The `pin_states` keys the loop can write, one per eligible entry. -/
def stateKeysOf (entries : List PinEntry) : List String :=
  entries.filterMap (fun e =>
    match e.pin with
    | none => none
    | some p => if skipsStateFetch e p then none else some (stateKey (entryIsInput e) p))

theorem stateKey_mem_stateKeysOf {entries : List PinEntry} {e : PinEntry} {p : Int}
    (he : e ∈ entries) (hp : e.pin = some p) (hskip : skipsStateFetch e p = false) :
    stateKey (entryIsInput e) p ∈ stateKeysOf entries := by
  refine List.mem_filterMap.2 ⟨e, he, ?_⟩
  rw [hp]
  simp [hskip]

/-- When every entry has a pin number, the loop completes: it issues
exactly the eligible requests, in order, and only writes eligible
keys. -/
theorem fetchPinStates_ok (env : Env) (entries : List PinEntry)
    (hpins : ∀ e ∈ entries, e.pin.isSome = true) :
    ∃ dict trace, fetchPinStates env entries = .ok (dict, trace)
      ∧ trace = fetchTraceSpec entries
      ∧ ∀ kv ∈ dict, kv.1 ∈ stateKeysOf entries := by
  induction entries with
  | nil => exact ⟨[], [], rfl, rfl, by simp⟩
  | cons e rest ih =>
      obtain ⟨dict, trace, hrec, htr, hkeys⟩ :=
        ih (fun x hx => hpins x (List.mem_cons_of_mem _ hx))
      have hp : e.pin.isSome = true := hpins e (List.mem_cons_self e rest)
      cases hpin : e.pin with
      | none => rw [hpin] at hp; simp at hp
      | some p =>
          by_cases hskip : skipsStateFetch e p
          · refine ⟨dict, trace, ?_, ?_, ?_⟩
            · simp [fetchPinStates, hpin, hskip, hrec]
            · rw [htr]
              simp [fetchTraceSpec, List.filterMap_cons, hpin, hskip]
            · intro kv hkv
              have := hkeys kv hkv
              simp only [stateKeysOf, List.filterMap_cons, hpin, hskip, if_true]
              exact this
          · cases hps : env.pinState p (entryIsInput e) with
            | ok d =>
                refine ⟨dict ++ [(stateKey (entryIsInput e) p, d)],
                  (p, entryIsInput e) :: trace, ?_, ?_, ?_⟩
                · simp [fetchPinStates, hpin, hskip, hrec, hps]
                · rw [htr]
                  simp [fetchTraceSpec, List.filterMap_cons, hpin, hskip]
                · intro kv hkv
                  rcases List.mem_append.1 hkv with hkv | hkv
                  · have := hkeys kv hkv
                    simp only [stateKeysOf, List.filterMap_cons, hpin, hskip, if_false]
                    exact List.mem_cons_of_mem _ this
                  · simp at hkv
                    rw [hkv]
                    simp only [stateKeysOf, List.filterMap_cons, hpin, hskip, if_false]
                    exact List.mem_cons_self _ _
            | httpError s =>
                refine ⟨dict, (p, entryIsInput e) :: trace, ?_, ?_, ?_⟩
                · simp [fetchPinStates, hpin, hskip, hrec, hps]
                · rw [htr]
                  simp [fetchTraceSpec, List.filterMap_cons, hpin, hskip]
                · intro kv hkv
                  have := hkeys kv hkv
                  simp only [stateKeysOf, List.filterMap_cons, hpin, hskip, if_false]
                  exact List.mem_cons_of_mem _ this
            | transportError =>
                refine ⟨dict, (p, entryIsInput e) :: trace, ?_, ?_, ?_⟩
                · simp [fetchPinStates, hpin, hskip, hrec, hps]
                · rw [htr]
                  simp [fetchTraceSpec, List.filterMap_cons, hpin, hskip]
                · intro kv hkv
                  have := hkeys kv hkv
                  simp only [stateKeysOf, List.filterMap_cons, hpin, hskip, if_false]
                  exact List.mem_cons_of_mem _ this

/-- Every key of a produced `pin_states` dict is the state key of some
eligible entry. -/
theorem fetchPinStates_keys_sub (env : Env) (entries : List PinEntry)
    (dict : List (String × PinState)) (trace : List (Int × Bool))
    (h : fetchPinStates env entries = .ok (dict, trace)) :
    ∀ kv ∈ dict, kv.1 ∈ stateKeysOf entries := by
  induction entries generalizing dict trace with
  | nil =>
      simp only [fetchPinStates, Except.ok.injEq, Prod.mk.injEq] at h
      rw [← h.1]
      simp
  | cons e rest ih =>
      cases hpin : e.pin with
      | none => simp [fetchPinStates, hpin] at h
      | some p =>
          by_cases hskip : skipsStateFetch e p
          · simp only [fetchPinStates, hpin, hskip, if_true] at h
            intro kv hkv
            have := ih dict trace h kv hkv
            simp only [stateKeysOf, List.filterMap_cons, hpin, hskip, if_true]
            exact this
          · cases hrec : fetchPinStates env rest with
            | error err => simp [fetchPinStates, hpin, hskip, hrec] at h
            | ok pr =>
                obtain ⟨dict2, trace2⟩ := pr
                cases hps : env.pinState p (entryIsInput e) with
                | ok d =>
                    simp [fetchPinStates, hpin, hskip, hrec, hps] at h
                    intro kv hkv
                    rw [← h.1] at hkv
                    simp only [stateKeysOf, List.filterMap_cons, hpin, hskip, if_false]
                    rcases List.mem_append.1 hkv with hkv | hkv
                    · exact List.mem_cons_of_mem _ (ih dict2 trace2 hrec kv hkv)
                    · simp at hkv
                      rw [hkv]
                      exact List.mem_cons_self _ _
                | httpError s =>
                    simp [fetchPinStates, hpin, hskip, hrec, hps] at h
                    intro kv hkv
                    rw [← h.1] at hkv
                    simp only [stateKeysOf, List.filterMap_cons, hpin, hskip, if_false]
                    exact List.mem_cons_of_mem _ (ih dict2 trace2 hrec kv hkv)
                | transportError =>
                    simp [fetchPinStates, hpin, hskip, hrec, hps] at h
                    intro kv hkv
                    rw [← h.1] at hkv
                    simp only [stateKeysOf, List.filterMap_cons, hpin, hskip, if_false]
                    exact List.mem_cons_of_mem _ (ih dict2 trace2 hrec kv hkv)

/-- C7.  Over the merged pin configuration (any entry list whose state
keys are distinct and whose entries carry pin numbers): the loop issues
one state request per entry that is not of type cover and has pin < 100,
in order, and none for cover or pin ≥ 100 entries; a request answered
with HTTP 200 and body `d` leaves `pin_states[key] = d` for that entry's
direction+pin key; a request that fails (transport/timeout error, or a
non-200 status) leaves that key absent, and the loop still completes with
the remaining pins fetched. -/
theorem fetchPinStates_per_pin_spec (env : Env) (entries : List PinEntry)
    (hpins : ∀ e ∈ entries, e.pin.isSome = true)
    (hnodup : (stateKeysOf entries).Nodup) :
    ∃ dict trace, fetchPinStates env entries = .ok (dict, trace)
    ∧ trace = fetchTraceSpec entries
    ∧ ∀ e ∈ entries, ∀ p, e.pin = some p → skipsStateFetch e p = false →
        ((∀ d, env.pinState p (entryIsInput e) = .ok d →
            lookupKey (stateKey (entryIsInput e) p) dict = some d)
         ∧ ((env.pinState p (entryIsInput e)).isOk = false →
            lookupKey (stateKey (entryIsInput e) p) dict = none)) := by
  induction entries with
  | nil => exact ⟨[], [], rfl, rfl, by simp⟩
  | cons e rest ih =>
      have hpinsrest : ∀ x ∈ rest, x.pin.isSome = true :=
        fun x hx => hpins x (List.mem_cons_of_mem _ hx)
      have hp : e.pin.isSome = true := hpins e (List.mem_cons_self e rest)
      cases hpin : e.pin with
      | none => rw [hpin] at hp; simp at hp
      | some p =>
          by_cases hskip : skipsStateFetch e p
          · have hnodup2 : (stateKeysOf rest).Nodup := by
              simpa [stateKeysOf, List.filterMap_cons, hpin, hskip] using hnodup
            obtain ⟨dict, trace, hrec, htr, hspec⟩ := ih hpinsrest hnodup2
            refine ⟨dict, trace, by simp [fetchPinStates, hpin, hskip, hrec],
              by rw [htr]; simp [fetchTraceSpec, List.filterMap_cons, hpin, hskip], ?_⟩
            intro x hx q hq hs
            rcases List.mem_cons.1 hx with hx | hx
            · subst hx
              rw [hpin] at hq
              injection hq with hq
              subst hq
              simp [hs] at hskip
            · exact hspec x hx q hq hs
          · have hkeycons : stateKeysOf (e :: rest)
                = stateKey (entryIsInput e) p :: stateKeysOf rest := by
              simp [stateKeysOf, List.filterMap_cons, hpin, hskip]
            rw [hkeycons] at hnodup
            have hknotin : stateKey (entryIsInput e) p ∉ stateKeysOf rest :=
              (List.nodup_cons.1 hnodup).1
            have hnodup2 : (stateKeysOf rest).Nodup := (List.nodup_cons.1 hnodup).2
            obtain ⟨dict, trace, hrec, htr, hspec⟩ := ih hpinsrest hnodup2
            have hdictnone : lookupKey (stateKey (entryIsInput e) p) dict = none := by
              refine lookupKey_eq_none_of_not_mem ?_
              intro kv hkv heq
              exact hknotin (heq ▸ fetchPinStates_keys_sub env rest dict trace hrec kv hkv)
            cases hps : env.pinState p (entryIsInput e) with
            | ok d =>
                refine ⟨dict ++ [(stateKey (entryIsInput e) p, d)],
                  (p, entryIsInput e) :: trace,
                  by simp [fetchPinStates, hpin, hskip, hrec, hps],
                  by rw [htr]; simp [fetchTraceSpec, List.filterMap_cons, hpin, hskip], ?_⟩
                intro x hx q hq hs
                rcases List.mem_cons.1 hx with hx | hx
                · subst hx
                  rw [hpin] at hq
                  injection hq with hq
                  subst hq
                  constructor
                  · intro d2 hd2
                    rw [hps] at hd2
                    injection hd2 with hd2
                    subst hd2
                    rw [lookupKey_append_of_none hdictnone]
                    simp [lookupKey]
                  · intro hfalse
                    rw [hps] at hfalse
                    simp [FetchResult.isOk] at hfalse
                · have hk2mem : stateKey (entryIsInput x) q ∈ stateKeysOf rest :=
                    stateKey_mem_stateKeysOf hx hq hs
                  have hkne : stateKey (entryIsInput e) p ≠ stateKey (entryIsInput x) q :=
                    fun heq => hknotin (heq ▸ hk2mem)
                  have hsp := hspec x hx q hq hs
                  constructor
                  · intro d2 hd2
                    exact lookupKey_append_of_some (hsp.1 d2 hd2)
                  · intro hfail
                    rw [lookupKey_append_of_none (hsp.2 hfail)]
                    simp [lookupKey, hkne]
            | httpError s =>
                refine ⟨dict, (p, entryIsInput e) :: trace,
                  by simp [fetchPinStates, hpin, hskip, hrec, hps],
                  by rw [htr]; simp [fetchTraceSpec, List.filterMap_cons, hpin, hskip], ?_⟩
                intro x hx q hq hs
                rcases List.mem_cons.1 hx with hx | hx
                · subst hx
                  rw [hpin] at hq
                  injection hq with hq
                  subst hq
                  constructor
                  · intro d2 hd2
                    rw [hps] at hd2
                    cases hd2
                  · intro _
                    exact hdictnone
                · exact hspec x hx q hq hs
            | transportError =>
                refine ⟨dict, (p, entryIsInput e) :: trace,
                  by simp [fetchPinStates, hpin, hskip, hrec, hps],
                  by rw [htr]; simp [fetchTraceSpec, List.filterMap_cons, hpin, hskip], ?_⟩
                intro x hx q hq hs
                rcases List.mem_cons.1 hx with hx | hx
                · subst hx
                  rw [hpin] at hq
                  injection hq with hq
                  subst hq
                  constructor
                  · intro d2 hd2
                    rw [hps] at hd2
                    cases hd2
                  · intro _
                    exact hdictnone
                · exact hspec x hx q hq hs

theorem mergePinsConfig_frame_witness :
    (mergePinsConfig rawPinsEx coversEx).take rawPinsEx.length = rawPinsEx
    ∧ (synthCoverEntry { CoverEntry.empty with coverId := some 1, name := some "Blind" } 1).type
        = some "cover" :=
  ⟨(mergePinsConfig_frame rawPinsEx coversEx).1,
   ((mergePinsConfig_frame rawPinsEx coversEx).2 _ (by decide)).1⟩

/-! ### Cycle-level soft-failure claims -/

theorem synthTail_pins_isSome (raw : List PinEntry) (covers : List CoverEntry) :
    ∀ e ∈ synthTail raw covers, e.pin.isSome = true := by
  intro e he
  obtain ⟨c, _, cid, _, _, hsynth⟩ := mem_synthTail he
  rw [hsynth]
  rfl

/-- C2 (amended).  When the info and pins-config fetches succeed (and
every reported pin entry carries a pin number, so the uncaught
`pin_config["pin"]` crash cannot occur), a failure — non-200 status or
transport/timeout error — of any of the covers-config, covers-state,
input-triggers, button-events or xr8-modules fetches does not abort the
cycle: a snapshot is still returned, with the failed resource's field at
its default — the empty list for `covers_config`, `button_events` and
`xr8_modules`, the initial empty dict for `covers_state`, and for
`triggers` the initial empty dict `{}` (an empty mapping, not the empty
list the original claim stated). -/
theorem updateData_soft_failure_defaults (env : Env) (listeners : List (Int × List Cb))
    (raises : Cb → Option String → Bool) (di : DeviceInfo) (b : PinsBody)
    (hinfo : env.info = .ok di) (hpins : env.pinsConfig = .ok b)
    (hraw : ∀ e ∈ b.pins.getD [], e.pin.isSome = true) :
    ∃ res, asyncUpdateData env listeners raises = .ok res
    ∧ (env.coversConfig.isOk = false → res.snapshot.covers_config = [])
    ∧ (env.coversState.isOk = false → res.snapshot.covers_state = [])
    ∧ (env.inputTriggers.isOk = false → res.snapshot.triggers = .emptyDict)
    ∧ (env.buttonEvents.isOk = false → res.snapshot.button_events = [])
    ∧ (env.xr8List.isOk = false → res.snapshot.xr8_modules = []) := by
  have hmerged : ∀ e ∈ mergePinsConfig (b.pins.getD [])
      (match env.coversConfig with
       | .ok cb => cb.covers.getD []
       | _ => []), e.pin.isSome = true := by
    intro e he
    rcases List.mem_append.1 he with he | he
    · exact hraw e he
    · exact synthTail_pins_isSome _ _ e he
  obtain ⟨dict, trace, hfetch, _, _⟩ := fetchPinStates_ok env _ hmerged
  refine ⟨⟨⟨di,
      mergePinsConfig (b.pins.getD [])
        (match env.coversConfig with | .ok cb => cb.covers.getD [] | _ => []),
      dict,
      (match env.inputTriggers with
       | .ok tb => .pylist (tb.triggers.getD [])
       | _ => .emptyDict),
      (match env.buttonEvents with | .ok eb => eb.events.getD [] | _ => []),
      (match env.coversState with
       | .ok sb => buildCoversState (sb.covers.getD [])
       | _ => []),
      (match env.coversConfig with | .ok cb => cb.covers.getD [] | _ => []),
      (match env.xr8List with | .ok xb => xb.modules.getD [] | _ => [])⟩,
      triggerButtonEvents listeners raises
        (match env.buttonEvents with | .ok eb => eb.events.getD [] | _ => []),
      trace⟩, ?_, ?_, ?_, ?_, ?_, ?_⟩
  · simp only [asyncUpdateData, hinfo, hpins, hfetch]
  · intro h
    cases hcc : env.coversConfig with
    | ok cb => rw [hcc] at h; simp [FetchResult.isOk] at h
    | httpError s => simp [hcc]
    | transportError => simp [hcc]
  · intro h
    cases hcs : env.coversState with
    | ok cb => rw [hcs] at h; simp [FetchResult.isOk] at h
    | httpError s => simp [hcs]
    | transportError => simp [hcs]
  · intro h
    cases hit : env.inputTriggers with
    | ok cb => rw [hit] at h; simp [FetchResult.isOk] at h
    | httpError s => simp [hit]
    | transportError => simp [hit]
  · intro h
    cases hbe : env.buttonEvents with
    | ok cb => rw [hbe] at h; simp [FetchResult.isOk] at h
    | httpError s => simp [hbe]
    | transportError => simp [hbe]
  · intro h
    cases hx : env.xr8List with
    | ok cb => rw [hx] at h; simp [FetchResult.isOk] at h
    | httpError s => simp [hx]
    | transportError => simp [hx]

/-- A cycle in which everything succeeds except the input-triggers
fetch, which times out. -/
def envTriggersDown : Env :=
  { info := .ok 7
    pinsConfig := .ok ⟨some []⟩
    coversConfig := .ok ⟨some []⟩
    pinState := fun _ _ => .ok ⟨some false, none⟩
    coversState := .ok ⟨some []⟩
    inputTriggers := .transportError
    buttonEvents := .ok ⟨some []⟩
    xr8List := .ok ⟨some []⟩ }

/-- C2 counterexample.  In a cycle whose only failure is the
input-triggers fetch, the cycle still succeeds but the snapshot's
`triggers` field is the initial empty dict `{}`, which is not the empty
list the claim states. -/
theorem updateData_triggers_default_not_a_list :
    (asyncUpdateData envTriggersDown [] (fun _ _ => false)).map
        (fun r => r.snapshot.triggers) = .ok TriggersVal.emptyDict
    ∧ TriggersVal.emptyDict ≠ TriggersVal.pylist [] := by
  refine ⟨rfl, by decide⟩

theorem updateData_soft_failure_defaults_witness :
    (envTriggersDown.info = .ok 7
      ∧ envTriggersDown.pinsConfig = .ok ⟨some []⟩
      ∧ envTriggersDown.inputTriggers.isOk = false)
    ∧ ∃ res, asyncUpdateData envTriggersDown [] (fun _ _ => false) = .ok res
        ∧ res.snapshot.triggers = .emptyDict := by
  refine ⟨⟨rfl, rfl, rfl⟩, ?_⟩
  obtain ⟨res, hres, _, _, htrig, _, _⟩ :=
    updateData_soft_failure_defaults envTriggersDown [] (fun _ _ => false) 7
      ⟨some []⟩ rfl rfl (by simp)
  exact ⟨res, hres, htrig rfl⟩

/-- A concrete merged configuration: a light on pin 3, a push-button
input on pin 5, and a virtual cover at pin 102. -/
def buttonPinEx : PinEntry :=
  { PinEntry.empty with
      pin := some 5
      type := some "binary_sensor"
      isInput := some true }

def entriesEx : List PinEntry :=
  [{ PinEntry.empty with pin := some 3, type := some "light", name := some "Lamp" },
   buttonPinEx,
   pinListCoverEx]

/-- A device that answers pin 3 state queries and times out on every
other pin-state query. -/
def envPinStatesEx : Env :=
  { info := .ok 7
    pinsConfig := .ok ⟨some entriesEx⟩
    coversConfig := .ok ⟨some []⟩
    pinState := fun p _ => if p = 3 then .ok ⟨some true, none⟩ else .transportError
    coversState := .ok ⟨some []⟩
    inputTriggers := .ok ⟨some []⟩
    buttonEvents := .ok ⟨some []⟩
    xr8List := .ok ⟨some []⟩ }

theorem fetchPinStates_per_pin_spec_witness :
    ((∀ e ∈ entriesEx, e.pin.isSome = true) ∧ (stateKeysOf entriesEx).Nodup)
    ∧ ∃ dict trace, fetchPinStates envPinStatesEx entriesEx = .ok (dict, trace)
      ∧ trace = fetchTraceSpec entriesEx
      ∧ ∀ e ∈ entriesEx, ∀ p, e.pin = some p → skipsStateFetch e p = false →
          ((∀ d, envPinStatesEx.pinState p (entryIsInput e) = .ok d →
              lookupKey (stateKey (entryIsInput e) p) dict = some d)
           ∧ ((envPinStatesEx.pinState p (entryIsInput e)).isOk = false →
              lookupKey (stateKey (entryIsInput e) p) dict = none)) :=
  ⟨⟨by decide, by decide⟩,
   fetchPinStates_per_pin_spec envPinStatesEx entriesEx (by decide) (by decide)⟩
